import Mathlib

/-!
Verification of the IMTP force-analysis core (`imtp_analyzer.py`).

The pipeline is shallowly embedded over exact rationals (ℚ):

* `safe_apply_filter` / `safe_apply_filterQ` — the filter stage.  The
  Butterworth `filtfilt` numeric kernel is a floating-point routine from
  scipy; it is taken as an explicit function parameter (`kernel`).  The
  `FVal`-valued version models float outputs that may be NaN or infinite;
  the ℚ-valued version is the finite-valued restriction used by the
  orchestrator model.
* `safe_detect_onset` — baseline statistics and the sustained-crossing
  scan.  `np.std` is the nonnegative square root of the variance and so
  leaves ℚ; it is passed as a function parameter `stdFn`, constrained to
  be nonnegative where a theorem needs it, and pinned to the exact
  variance in concrete counterexamples.
* `safe_calculate_rfd`, `resolve_onset`, `analyze_core`,
  `analyze_trial_safe` — RFD profile, onset resolution, metric
  extraction and the orchestrator, mirrored statement by statement.
* `analyzeWithLog` threads the warning log (the only ambient interaction
  of the source, `st.warning`/`st.error`) explicitly, so that
  independence of the result from ambient state is a provable statement.
* `applyOnsetHandler` / `resetOnsetHandler` — the session handlers that
  store/delete a manual-onset override and re-analyze.

Python's `int()` on a nonnegative float truncates toward zero; it is
modelled by `pyInt`.  Python list slices `a[i:j]` are modelled by
`drop`/`take`, and `range(a, b)` by `List.range' a (b - a)` (with ℕ
truncated subtraction matching the empty range for `b ≤ a`).
-/

namespace IMTP

/-- Model of `np.mean` over a rational list (mean of the empty list is 0 here;
numpy yields NaN with a warning, which never feeds a claim). -/
def listMean (l : List ℚ) : ℚ := l.sum / (l.length : ℚ)

/-- Population variance as computed by `np.var` (mean of squared
deviations); `np.std` is its square root. -/
def npVariance (l : List ℚ) : ℚ :=
  listMean (l.map (fun x => (x - listMean l) * (x - listMean l)))

/-- Model of `np.max` over a nonempty list (0 for the empty list, which numpy
rejects; never reached on the pipeline's inputs). -/
def npMax : List ℚ → ℚ
  | [] => 0
  | x :: xs => xs.foldl max x

/-- Model of `np.argmax`: index of the first occurrence of the maximum. -/
def npArgmax : List ℚ → ℕ
  | [] => 0
  | x :: xs => (xs.enum.foldl (fun b p => if b.2 < p.2 then (p.1 + 1, p.2) else b) (0, x)).1

/-- Python `int()` applied to an exact rational: truncation toward zero. -/
def pyInt (q : ℚ) : ℤ :=
  if 0 ≤ q.num then ((q.num.toNat / q.den : ℕ) : ℤ)
  else -(((-q.num).toNat / q.den : ℕ) : ℤ)

/-- Modelled from the spec: rounding to the nearest sample (half away
from zero on the nonnegative arguments in play), as the spec's
`round(...)` prescribes.  The source uses `pyInt` instead. -/
def specRound (q : ℚ) : ℤ := pyInt (q + 1/2)

/-- Python's binary `min` on integers. -/
def intMin (a b : ℤ) : ℤ := if a ≤ b then a else b

/-- Python's binary `max` on integers. -/
def intMax (a b : ℤ) : ℤ := if a ≤ b then b else a

/-- The index clamp `max(0, min(idx, n - 1))` on line 200 of
`imtp_analyzer.py`. -/
def clampIndex (idx : ℤ) (n : ℕ) : ℕ := (intMax 0 (intMin idx ((n : ℤ) - 1))).toNat

/-- Onset resolution, lines 192–200 of `imtp_analyzer.py` (the same
truncation is `time_to_index` in `imtp_analyzer_streamlit.py`):
a manual time maps to `int(manual_time * sampling_rate)`, otherwise the
automatic index is used; either way the index is clamped to
`[0, flen - 1]`. -/
def resolve_onset (autoIdx : ℕ) (autoTime : ℚ) (manual : Option ℚ) (rate : ℕ)
    (flen : ℕ) : ℕ × ℚ × Bool :=
  match manual with
  | some m => (clampIndex (pyInt (m * (rate : ℚ))) flen, m, true)
  | none => (clampIndex (autoIdx : ℤ) flen, autoTime, false)

/-- The baseline-window clamp of `safe_detect_onset`
(`imtp_analyzer.py` lines 103–107): `min` with `len // 4`, then `max`
with 10, then `len // 2` if the result still reaches the series length. -/
def clampBaselineWindow (bw0 len : ℕ) : ℕ :=
  if len ≤ max (min bw0 (len / 4)) 10 then len / 2 else max (min bw0 (len / 4)) 10

/-- The detection threshold (`imtp_analyzer.py` lines 109–116):
`baseline_mean + baseline_std * multiplier`, with `0.1` substituted for a
zero `baseline_std`.  `stdFn` stands for `np.std` (see the header). -/
def detectThreshold (stdFn : List ℚ → ℚ) (force : List ℚ) (bw0 : ℕ) (mult : ℚ) : ℚ :=
  listMean (force.take (clampBaselineWindow bw0 force.length)) +
    (if stdFn (force.take (clampBaselineWindow bw0 force.length)) = 0 then 1/10
     else stdFn (force.take (clampBaselineWindow bw0 force.length))) * mult

/-- The sustained-crossing test at index `i`
(`imtp_analyzer.py` lines 119–120): `force[i] > threshold` and all of the
slice `force[i:i+5]` above the threshold. -/
def sustainedCross (force : List ℚ) (t : ℚ) (i : ℕ) : Bool :=
  decide (t < force.getD i 0) && ((force.drop i).take 5).all (fun f => decide (t < f))

/-- The scan loop of `safe_detect_onset` (`imtp_analyzer.py` line 118):
first `i` in `range(baseline_window, len(force) - 5)` passing
`sustainedCross`. -/
def findSustainedCrossing (force : List ℚ) (bw : ℕ) (t : ℚ) : Option ℕ :=
  (List.range' bw (force.length - 5 - bw)).find? (sustainedCross force t)

/-- Model of `safe_detect_onset` (`imtp_analyzer.py` lines 100–123): returns the
first sustained crossing, or the clamped baseline window as fallback,
always together with the baseline mean and the threshold. -/
def safe_detect_onset (stdFn : List ℚ → ℚ) (force : List ℚ) (bw0 : ℕ) (mult : ℚ) :
    ℕ × ℚ × ℚ :=
  match findSustainedCrossing force (clampBaselineWindow bw0 force.length)
      (detectThreshold stdFn force bw0 mult) with
  | some i => (i, listMean (force.take (clampBaselineWindow bw0 force.length)),
      detectThreshold stdFn force bw0 mult)
  | none => (clampBaselineWindow bw0 force.length,
      listMean (force.take (clampBaselineWindow bw0 force.length)),
      detectThreshold stdFn force bw0 mult)

/-- Force trace refuting monotonicity of the onset in the threshold
multiplier: baseline of mean 1 and variance 1, then a plateau at 3 that
crosses the lower threshold only. -/
def c2force : List ℚ := [0, 2, 0, 2, 0, 2, 0, 2, 0, 2, 0, 3, 3, 3, 3, 3, 0]

/-- Force trace for the witness of claim C2: quiet baseline, then a
plateau crossing both thresholds at the first scanned index. -/
def c2wforce : List ℚ := [0, 0, 0, 0, 0, 0, 0, 0, 0, 0, 3, 3, 3, 3, 3, 3, 0]

/-- Constant force trace for the witness of claim C3; no crossing. -/
def c3wforce : List ℚ := List.replicate 12 1

/-- The fixed RFD windows in milliseconds (`time_windows`). -/
def timeWindows : List ℕ := [50, 100, 150, 200, 250]

/-- Model of `safe_calculate_rfd` (`imtp_analyzer.py` lines 130–166): all windows
absent when the onset lies past the series; otherwise a window is present
iff `onset + points < len(force)` with
`points = int(window * sampling_rate / 1000)` (ℕ division is exactly the
`int()` truncation here), with value
`(force[onset+points] - force[onset]) / (window / 1000)`.  The
`isnan`/`isinf` guard of the source never fires over ℚ. -/
def safe_calculate_rfd (force : List ℚ) (onset rate : ℕ) : List (ℕ × Option ℚ) :=
  if force.length ≤ onset then timeWindows.map (fun w => (w, none))
  else
    timeWindows.map (fun w =>
      (w, if onset + w * rate / 1000 < force.length
          then some ((force.getD (onset + w * rate / 1000) 0 - force.getD onset 0) /
              ((w : ℚ) / 1000))
          else none))

/-- Ramp of 51 samples going 0,1,…,50 N; refutes the round-based RFD
absence condition at `rate = 1015`. -/
def c6force : List ℚ := (List.range 51).map (fun i => (i : ℚ))

/-- A float value as seen by the filter stage: finite, NaN, or a signed
infinity. -/
inductive FVal where
  | fin (q : ℚ) : FVal
  | nan : FVal
  | inf : FVal
  | ninf : FVal
deriving DecidableEq

/-- Model of `np.isnan` on a single value. -/
def FVal.isNaN : FVal → Bool
  | nan => true
  | _ => false

/-- Model of `np.isfinite` on a single value. -/
def FVal.isFinite : FVal → Bool
  | fin _ => true
  | _ => false

/-- The normalized cutoff `min(filter_freq / (0.5 * sampling_rate), 0.99)`
(`imtp_analyzer.py` lines 81–82). -/
def cutoffOf (freq : ℚ) (rate : ℕ) : ℚ := min (freq / ((rate : ℚ) / 2)) (99/100)

/-- Model of `safe_apply_filter` (`imtp_analyzer.py` lines 74–98): skip for short
data or nonpositive cutoff; run the Butterworth `filtfilt` kernel
(parameter `kernelF`, a float routine that may emit NaN or infinities);
discard the output and return a copy of the input when the output
contains any NaN — that is the only check the source makes
(`np.any(np.isnan(...))`). -/
def safe_apply_filter (kernelF : ℚ → List ℚ → List FVal) (force : List ℚ)
    (freq : ℚ) (rate : ℕ) : List FVal :=
  if force.length < 6 then force.map FVal.fin
  else if cutoffOf freq rate ≤ 0 then force.map FVal.fin
  else if (kernelF (cutoffOf freq rate) force).any FVal.isNaN then force.map FVal.fin
  else kernelF (cutoffOf freq rate) force

/-- A filter kernel whose output is all infinities (a non-finite,
NaN-free output). -/
def c7kernel : ℚ → List ℚ → List FVal := fun _ _ => List.replicate 6 FVal.inf

/-- Six-sample input trace for the filter counterexample. -/
def c7force : List ℚ := [1, 2, 3, 4, 5, 6]

/-- Row-wise NaN removal (`imtp_analyzer.py` lines 176–179): keep the
positions where both the time and the force value are present (`some`);
`none` models a float NaN. -/
def cleanPairs (t f : List (Option ℚ)) : List (ℚ × ℚ) :=
  (t.zip f).filterMap (fun p =>
    match p with
    | (some a, some b) => some (a, b)
    | _ => none)

/-- The cleaned time series. -/
def cleanT (t f : List (Option ℚ)) : List ℚ := (cleanPairs t f).map Prod.fst

/-- The cleaned force series. -/
def cleanF (t f : List (Option ℚ)) : List ℚ := (cleanPairs t f).map Prod.snd

/-- Message of the
`ValueError` raised on line 173 for fewer than 50 samples. -/
def errDataShort : String := "データ点数が不足しています（最低50点必要）"

/-- Message of the `ValueError`
raised on line 183 when fewer than 50 valid samples remain. -/
def errValidShort : String := "有効なデータ点数が不足しています"

/-- The numpy broadcast error raised when the two arrays have different
lengths in the NaN mask on line 176 (caught by the same handler). -/
def errBroadcast : String := "operands could not be broadcast together"

/-- Warning shown when NaN rows were removed (line 180). -/
def warnNaNRemoved : String := "NaN値を除去しました"

/-- Warning shown when the filter is skipped for short data (line 78). -/
def warnFilterSkip : String := "データ点数が少ないため、フィルター処理をスキップします"

/-- The ℚ-valued restriction of `safe_apply_filter` used by the
orchestrator model: the branch structure of lines 74–94 with a kernel
whose outputs are finite (the NaN fallback is modelled on `FVal` by
`safe_apply_filter`; a NaN-free `filtfilt` output is what reaches the
rest of the pipeline). -/
def safe_apply_filterQ (kernel : ℚ → List ℚ → List ℚ) (force : List ℚ)
    (freq : ℚ) (rate : ℕ) : List ℚ :=
  if force.length < 6 then force
  else if cutoffOf freq rate ≤ 0 then force
  else kernel (cutoffOf freq rate) force

/-- Variant of `safe_apply_filterQ` with the ambient warning log threaded
explicitly (the `st.warning` calls of the source). -/
def safe_apply_filterQ_log (kernel : ℚ → List ℚ → List ℚ) (log : List String)
    (force : List ℚ) (freq : ℚ) (rate : ℕ) : List String × List ℚ :=
  if force.length < 6 then (log ++ [warnFilterSkip], force)
  else if cutoffOf freq rate ≤ 0 then (log, force)
  else (log, kernel (cutoffOf freq rate) force)

/-- The result record built by `analyze_trial_safe`
(`imtp_analyzer.py` lines 216–233). -/
structure AnalysisResult where
  baseline_mean : ℚ
  threshold : ℚ
  auto_onset_index : ℕ
  auto_onset_time : ℚ
  onset_index : ℕ
  onset_time : ℚ
  onset_force : ℚ
  peak_force : ℚ
  peak_force_index : ℕ
  peak_time : ℚ
  net_peak_force : ℚ
  time_to_peak : ℚ
  rfd_values : List (ℕ × Option ℚ)
  filtered_force : List ℚ
  time_data : List ℚ
  manual_adjustment : Bool
deriving DecidableEq

/-- Lines 188–233 of `imtp_analyzer.py` after the filter: automatic
detection, onset resolution, peak extraction (suffix argmax, falling
back to the global argmax when the onset sits at the last index), RFD
profile, and packaging. -/
def analyze_core (stdFn : List ℚ → ℚ) (tc filtered : List ℚ) (mult : ℚ)
    (rate bw : ℕ) (m : Option ℚ) : AnalysisResult :=
  let det := safe_detect_onset stdFn filtered bw mult
  let autoTime := (det.1 : ℚ) / (rate : ℚ)
  let res := resolve_onset det.1 autoTime m rate filtered.length
  let onsetIdx := res.1
  let peakIdx := if onsetIdx < filtered.length - 1
    then npArgmax (filtered.drop onsetIdx) + onsetIdx else npArgmax filtered
  let peakForce := if onsetIdx < filtered.length - 1
    then npMax (filtered.drop onsetIdx) else npMax filtered
  { baseline_mean := det.2.1
    threshold := det.2.2
    auto_onset_index := det.1
    auto_onset_time := autoTime
    onset_index := onsetIdx
    onset_time := res.2.1
    onset_force := filtered.getD onsetIdx 0
    peak_force := peakForce
    peak_force_index := peakIdx
    peak_time := (peakIdx : ℚ) / (rate : ℚ)
    net_peak_force := peakForce - det.2.1
    time_to_peak := ((peakIdx : ℚ) - (onsetIdx : ℚ)) / (rate : ℚ)
    rfd_values := safe_calculate_rfd filtered onsetIdx rate
    filtered_force := filtered
    time_data := tc
    manual_adjustment := m.isSome }

/-- Variant of `analyze_trial_safe` with the ambient warning log threaded
explicitly: validation (length, broadcast, valid-pair count), then the
filtered pipeline.  The log is the only ambient state the source touches
(`st.warning` / `st.error`); the result component must not depend on
it. -/
def analyzeWithLog (kernel : ℚ → List ℚ → List ℚ) (stdFn : List ℚ → ℚ)
    (log : List String) (t f : List (Option ℚ)) (freq mult : ℚ) (rate bw : ℕ)
    (m : Option ℚ) : List String × Except String AnalysisResult :=
  if t.length < 50 ∨ f.length < 50 then (log ++ [errDataShort], .error errDataShort)
  else if t.length ≠ f.length then (log ++ [errBroadcast], .error errBroadcast)
  else if (cleanT t f).length < 50 then
    ((if (cleanT t f).length = t.length then log else log ++ [warnNaNRemoved]) ++
        [errValidShort],
      .error errValidShort)
  else
    ((safe_apply_filterQ_log kernel
        (if (cleanT t f).length = t.length then log else log ++ [warnNaNRemoved])
        (cleanF t f) freq rate).1,
      .ok (analyze_core stdFn (cleanT t f)
        (safe_apply_filterQ_log kernel
          (if (cleanT t f).length = t.length then log else log ++ [warnNaNRemoved])
          (cleanF t f) freq rate).2 mult rate bw m))

/-- Model of `analyze_trial_safe` (`imtp_analyzer.py` lines 168–237): validation
then pipeline; any raised `ValueError` (or the numpy broadcast error
from mismatched lengths) is caught and surfaces as a `Failure` with the
exception's message. -/
def analyze_trial_safe (kernel : ℚ → List ℚ → List ℚ) (stdFn : List ℚ → ℚ)
    (t f : List (Option ℚ)) (freq mult : ℚ) (rate bw : ℕ) (m : Option ℚ) :
    Except String AnalysisResult :=
  if t.length < 50 ∨ f.length < 50 then .error errDataShort
  else if t.length ≠ f.length then .error errBroadcast
  else if (cleanT t f).length < 50 then .error errValidShort
  else .ok (analyze_core stdFn (cleanT t f)
      (safe_apply_filterQ kernel (cleanF t f) freq rate) mult rate bw m)

/-- Per-trial session state: the manual-onset override stored in
`manual_onset_adjustments` under the trial's key, and the trial's latest
result record in `trial_results`. -/
structure TrialSession where
  store : Option ℚ
  result : Option AnalysisResult

/-- The apply handler (`imtp_analyzer.py` lines 531–555): store the
override, re-analyze with the stored time series of the current result
and the raw force column, and replace the result only on success. -/
def applyOnsetHandler (kernel : ℚ → List ℚ → List ℚ) (stdFn : List ℚ → ℚ)
    (f_raw : List (Option ℚ)) (freq mult : ℚ) (rate bw : ℕ)
    (s : TrialSession) (v : ℚ) : TrialSession :=
  match s.result with
  | none => s
  | some r =>
    match analyze_trial_safe kernel stdFn (r.time_data.map some) f_raw freq mult rate bw
        (some v) with
    | .ok r' => ⟨some v, some r'⟩
    | .error _ => ⟨some v, some r⟩

/-- The reset handler (`imtp_analyzer.py` lines 558–585): delete the
override, re-analyze with `manual_onset_time = None`, and replace the
result only on success. -/
def resetOnsetHandler (kernel : ℚ → List ℚ → List ℚ) (stdFn : List ℚ → ℚ)
    (f_raw : List (Option ℚ)) (freq mult : ℚ) (rate bw : ℕ)
    (s : TrialSession) : TrialSession :=
  match s.result with
  | none => s
  | some r =>
    match analyze_trial_safe kernel stdFn (r.time_data.map some) f_raw freq mult rate bw
        none with
    | .ok r' => ⟨none, some r'⟩
    | .error _ => ⟨none, some r⟩

/-- Concrete 50-sample time column (no NaN) for the round-trip witness. -/
def c4t : List (Option ℚ) := (List.range 50).map (fun i => some ((i : ℚ) / 1000))

/-- Concrete 50-sample force column (no NaN) for the round-trip witness. -/
def c4f : List (Option ℚ) := List.replicate 50 (some 2)

/-- Identity filter kernel for the round-trip witness. -/
def c4kernel : ℚ → List ℚ → List ℚ := fun _ l => l

/-- The automatic analysis record of the round-trip witness trial. -/
def c4res : AnalysisResult :=
  analyze_core (fun _ => 0) (cleanT c4t c4f)
    (safe_apply_filterQ c4kernel (cleanF c4t c4f) 50 1000) 5 1000 1000 none

theorem pyInt_natCast (n : ℕ) : pyInt (n : ℚ) = n := by
  unfold pyInt
  rw [Rat.num_natCast, Rat.den_natCast]
  simp

/-- On nonnegative rationals, Python truncation agrees with the floor. -/
theorem pyInt_eq_floor (q : ℚ) (h : 0 ≤ q) : pyInt q = ⌊q⌋ := by
  have hn : 0 ≤ q.num := Rat.num_nonneg.mpr h
  unfold pyInt
  rw [if_pos hn, Rat.floor_def, Int.ofNat_tdiv, Int.toNat_of_nonneg hn,
    Int.tdiv_eq_ediv hn (by positivity)]

theorem clampIndex_of_lt (n flen : ℕ) (h : n < flen) : clampIndex (n : ℤ) flen = n := by
  unfold clampIndex intMin intMax
  have h1 : (n : ℤ) ≤ (flen : ℤ) - 1 := by omega
  rw [if_pos h1, if_pos (by positivity : (0 : ℤ) ≤ (n : ℤ))]
  simp

/-- C1 (counterexample): with `manual_time = 0.0017` s and
`sampling_rate = 1000` Hz the code truncates `1.7` to index 1, while the
spec's `round(manual_time * sampling_rate)` is 2. -/
theorem C1_counterexample :
    resolve_onset 0 0 (some (17/10000)) 1000 50 = (1, 17/10000, true) ∧
    specRound ((17/10000 : ℚ) * ((1000 : ℕ) : ℚ)) = 2 := by
  constructor
  · show (clampIndex (pyInt ((17/10000 : ℚ) * ((1000 : ℕ) : ℚ))) 50, (17/10000 : ℚ), true) = _
    rw [show (17/10000 : ℚ) * ((1000 : ℕ) : ℚ) = 17/10 by norm_num,
      pyInt_eq_floor _ (by norm_num), show ⌊(17/10 : ℚ)⌋ = 1 by norm_num]
    rfl
  · show pyInt ((17/10000 : ℚ) * ((1000 : ℕ) : ℚ) + 1/2) = 2
    rw [show (17/10000 : ℚ) * ((1000 : ℕ) : ℚ) + 1/2 = 11/5 by norm_num,
      pyInt_eq_floor _ (by norm_num), show ⌊(11/5 : ℚ)⌋ = 2 by norm_num]

/-- C1 (amended): for a manual onset time the effective index is
`int(manual_time * sampling_rate)` truncated toward zero (not rounded to
the nearest sample), clamped into range; the effective time is the
manual time and the manual flag is set.  Resolving with
`manual_time = auto_time = auto_index / rate` reproduces `auto_index`
exactly (hence within one sample), with the manual flag still set. -/
theorem C1_amended (autoIdx rate flen : ℕ) (t m : ℚ) (hr : 0 < rate)
    (hlt : autoIdx < flen) :
    resolve_onset autoIdx t (some m) rate flen =
      (clampIndex (pyInt (m * (rate : ℚ))) flen, m, true) ∧
    resolve_onset autoIdx t (some ((autoIdx : ℚ) / (rate : ℚ))) rate flen =
      (autoIdx, (autoIdx : ℚ) / (rate : ℚ), true) := by
  constructor
  · rfl
  · have hrn0 : ((rate : ℚ)) ≠ 0 := Nat.cast_ne_zero.mpr hr.ne'
    have hcancel : ((autoIdx : ℚ) / (rate : ℚ)) * (rate : ℚ) = (autoIdx : ℚ) :=
      div_mul_cancel₀ _ hrn0
    show (clampIndex (pyInt (((autoIdx : ℚ) / (rate : ℚ)) * (rate : ℚ))) flen,
        (autoIdx : ℚ) / (rate : ℚ), true) = _
    rw [hcancel, pyInt_natCast, clampIndex_of_lt _ _ hlt]

/-- C1 witness: concrete instantiation of `C1_amended` at
`auto_index = 7`, `rate = 1000`, series length 50, manual time
`0.0013` s. -/
theorem C1_amended_witness :
    resolve_onset 7 0 (some (13/10000)) 1000 50 =
      (clampIndex (pyInt ((13/10000 : ℚ) * ((1000 : ℕ) : ℚ))) 50, 13/10000, true) ∧
    resolve_onset 7 0 (some (((7 : ℕ) : ℚ) / ((1000 : ℕ) : ℚ))) 1000 50 =
      (7, ((7 : ℕ) : ℚ) / ((1000 : ℕ) : ℚ), true) :=
  C1_amended 7 1000 50 0 (13/10000) (by norm_num) (by norm_num)

theorem sustainedCross_mono (force : List ℚ) (t1 t2 : ℚ) (h : t1 ≤ t2) (i : ℕ)
    (h2 : sustainedCross force t2 i = true) : sustainedCross force t1 i = true := by
  unfold sustainedCross at h2 ⊢
  simp only [Bool.and_eq_true, decide_eq_true_eq, List.all_eq_true] at h2 ⊢
  exact ⟨lt_of_le_of_lt h h2.1, fun f hf => lt_of_le_of_lt h (h2.2 f hf)⟩

theorem find?_range'_le (p q : ℕ → Bool) (hpq : ∀ i, q i = true → p i = true) :
    ∀ (n s j : ℕ), (List.range' s n).find? q = some j →
      ∃ i, (List.range' s n).find? p = some i ∧ i ≤ j := by
  intro n
  induction n with
  | zero => intro s j h; simp [List.range'] at h
  | succ n ih =>
    intro s j h
    rw [show List.range' s (n + 1) = s :: List.range' (s + 1) n from rfl] at h ⊢
    by_cases hqs : q s = true
    · rw [List.find?_cons_of_pos _ hqs] at h
      obtain rfl : s = j := by simpa using h
      rw [List.find?_cons_of_pos _ (hpq s hqs)]
      exact ⟨s, rfl, le_refl s⟩
    · rw [List.find?_cons_of_neg _ (by simpa using hqs)] at h
      by_cases hps : p s = true
      · rw [List.find?_cons_of_pos _ hps]
        refine ⟨s, rfl, ?_⟩
        have hj := List.mem_of_find?_eq_some h
        have := List.mem_range'_1.mp hj
        omega
      · rw [List.find?_cons_of_neg _ (by simpa using hps)]
        exact ih (s + 1) j h

theorem findSustainedCrossing_mono (force : List ℚ) (bw : ℕ) (t1 t2 : ℚ)
    (h : t1 ≤ t2) (j : ℕ) (hj : findSustainedCrossing force bw t2 = some j) :
    ∃ i, findSustainedCrossing force bw t1 = some i ∧ i ≤ j := by
  unfold findSustainedCrossing at hj ⊢
  exact find?_range'_le _ _ (fun i => sustainedCross_mono force t1 t2 h i) _ _ _ hj

theorem detectThreshold_mono (stdFn : List ℚ → ℚ) (force : List ℚ) (bw0 : ℕ)
    (m1 m2 : ℚ)
    (hstd : 0 ≤ stdFn (force.take (clampBaselineWindow bw0 force.length)))
    (h : m1 ≤ m2) :
    detectThreshold stdFn force bw0 m1 ≤ detectThreshold stdFn force bw0 m2 := by
  unfold detectThreshold
  have hpos : 0 ≤ (if stdFn (force.take (clampBaselineWindow bw0 force.length)) = 0
      then (1/10 : ℚ) else stdFn (force.take (clampBaselineWindow bw0 force.length))) := by
    split
    · norm_num
    · exact hstd
  exact add_le_add_left (mul_le_mul_of_nonneg_left h hpos) _

/-- C2 (counterexample): with multipliers 1 ≤ 3 on `c2force` (whose
baseline has variance 1, so `np.std = 1` and the constant-1 `stdFn` is
exact), the higher multiplier's threshold is never crossed, the fallback
baseline-window index 10 is returned, and it is strictly smaller than
the lower multiplier's detected onset 11. -/
theorem C2_counterexample :
    (1 : ℚ) ≤ 3 ∧
    npVariance (c2force.take 10) = 1 ∧
    (safe_detect_onset (fun _ => 1) c2force 10 3).1 <
      (safe_detect_onset (fun _ => 1) c2force 10 1).1 := by
  have hbw : clampBaselineWindow 10 c2force.length = 10 := rfl
  have htake : c2force.take 10 = [0, 2, 0, 2, 0, 2, 0, 2, 0, 2] := rfl
  have h1 : detectThreshold (fun _ => 1) c2force 10 1 = 2 := by
    unfold detectThreshold
    rw [hbw, htake]
    simp only [listMean, List.sum_cons, List.sum_nil, List.length_cons, List.length_nil]
    norm_num
  have h3 : detectThreshold (fun _ => 1) c2force 10 3 = 4 := by
    unfold detectThreshold
    rw [hbw, htake]
    simp only [listMean, List.sum_cons, List.sum_nil, List.length_cons, List.length_nil]
    norm_num
  refine ⟨by norm_num, ?_, ?_⟩
  · rw [htake]
    unfold npVariance listMean
    simp only [List.map_cons, List.map_nil, List.sum_cons, List.sum_nil,
      List.length_cons, List.length_nil, List.length_map]
    norm_num
  · have hA : (safe_detect_onset (fun _ => 1) c2force 10 1).1 = 11 := by
      unfold safe_detect_onset
      rw [hbw, h1, show findSustainedCrossing c2force 10 2 = some 11 from by decide]
    have hB : (safe_detect_onset (fun _ => 1) c2force 10 3).1 = 10 := by
      unfold safe_detect_onset
      rw [hbw, h3, show findSustainedCrossing c2force 10 4 = none from by decide]
    rw [hA, hB]
    omega

/-- C2 (amended): raising the threshold multiplier never moves the
detected onset earlier, provided the higher multiplier's threshold is
still crossed somewhere in the scan range; when it is never crossed the
fallback baseline-window index is returned, which may be earlier than
the lower multiplier's detected onset. -/
theorem C2_amended (stdFn : List ℚ → ℚ) (force : List ℚ) (bw0 : ℕ) (m1 m2 : ℚ)
    (hstd : 0 ≤ stdFn (force.take (clampBaselineWindow bw0 force.length)))
    (h12 : m1 ≤ m2)
    (hfound : ∃ j, findSustainedCrossing force (clampBaselineWindow bw0 force.length)
        (detectThreshold stdFn force bw0 m2) = some j) :
    (safe_detect_onset stdFn force bw0 m1).1 ≤ (safe_detect_onset stdFn force bw0 m2).1 := by
  obtain ⟨j, hj⟩ := hfound
  have hth := detectThreshold_mono stdFn force bw0 m1 m2 hstd h12
  obtain ⟨i, hi, hij⟩ := findSustainedCrossing_mono force
    (clampBaselineWindow bw0 force.length) _ _ hth j hj
  unfold safe_detect_onset
  rw [hi, hj]
  exact hij

/-- C2 witness: concrete instantiation of `C2_amended` on `c2wforce`
with multipliers 1 ≤ 2. -/
theorem C2_amended_witness :
    (safe_detect_onset (fun _ => 1) c2wforce 10 1).1 ≤
      (safe_detect_onset (fun _ => 1) c2wforce 10 2).1 := by
  refine C2_amended (fun _ => 1) c2wforce 10 1 2 zero_le_one (by norm_num) ⟨10, ?_⟩
  have hbw : clampBaselineWindow 10 c2wforce.length = 10 := rfl
  have h2 : detectThreshold (fun _ => 1) c2wforce 10 2 = 2 := by
    unfold detectThreshold
    rw [hbw, show c2wforce.take 10 = [0, 0, 0, 0, 0, 0, 0, 0, 0, 0] from rfl]
    simp only [listMean, List.sum_cons, List.sum_nil, List.length_cons, List.length_nil]
    norm_num
  rw [hbw, h2]
  decide

/-- C3 (counterexample): on the one-sample series `[5]` no index in the
(empty) scan range satisfies the sustained-crossing condition, yet the
detector returns index 0 — the clamped baseline window degenerates to
`1 // 2 = 0`. -/
theorem C3_counterexample :
    findSustainedCrossing ([5] : List ℚ) (clampBaselineWindow 1000 ([5] : List ℚ).length)
      (detectThreshold (fun _ => 0) [5] 1000 5) = none ∧
    (safe_detect_onset (fun _ => 0) ([5] : List ℚ) 1000 5).1 = 0 := ⟨rfl, rfl⟩

/-- C3 (amended): whenever no index in the scan range satisfies the
sustained-crossing condition, `safe_detect_onset` returns exactly the
triple (clamped baseline window, baseline mean, threshold) — no error —
and the returned index is nonzero for every series of at least two
samples (in particular for all pipeline series, which have ≥ 50). -/
theorem C3_amended (stdFn : List ℚ → ℚ) (force : List ℚ) (bw0 : ℕ) (mult : ℚ)
    (hnone : findSustainedCrossing force (clampBaselineWindow bw0 force.length)
        (detectThreshold stdFn force bw0 mult) = none) :
    safe_detect_onset stdFn force bw0 mult =
      (clampBaselineWindow bw0 force.length,
       listMean (force.take (clampBaselineWindow bw0 force.length)),
       detectThreshold stdFn force bw0 mult) ∧
    (2 ≤ force.length → clampBaselineWindow bw0 force.length ≠ 0) := by
  constructor
  · unfold safe_detect_onset
    rw [hnone]
  · intro hlen
    unfold clampBaselineWindow
    split
    · omega
    · have h10 := le_max_right (min bw0 (force.length / 4)) 10
      omega

/-- C3 witness: concrete instantiation of `C3_amended` on the constant
12-sample trace `c3wforce` (scan range empty, fallback index 10 ≠ 0). -/
theorem C3_amended_witness :
    safe_detect_onset (fun _ => 0) c3wforce 1000 5 =
      (clampBaselineWindow 1000 c3wforce.length,
       listMean (c3wforce.take (clampBaselineWindow 1000 c3wforce.length)),
       detectThreshold (fun _ => 0) c3wforce 1000 5) ∧
    (2 ≤ c3wforce.length → clampBaselineWindow 1000 c3wforce.length ≠ 0) :=
  C3_amended (fun _ => 0) c3wforce 1000 5 (by rfl)

theorem lookup_windows (g : ℕ → Option ℚ) (w : ℕ) (hw : w ∈ timeWindows) :
    (timeWindows.map (fun v => (v, g v))).lookup w = some (g w) := by
  have hw' : w ∈ [50, 100, 150, 200, 250] := hw
  fin_cases hw' <;> rfl

/-- C6 (counterexample): at `rate = 1015` Hz and window 50 ms the code's
`int(50 * 1015 / 1000) = 50` points fit inside the 51-sample series, so
RFD 0–50 ms is present (value 1000 N/s), although the spec's
`round(50 * 1015 / 1000) = 51` points would make it absent. -/
theorem C6_counterexample :
    (safe_calculate_rfd c6force 0 1015).lookup 50 = some (some 1000) ∧
    c6force.length ≤ 0 + (specRound (((50 : ℕ) : ℚ) * ((1015 : ℕ) : ℚ) / 1000)).toNat := by
  constructor
  · have hstep : (safe_calculate_rfd c6force 0 1015).lookup 50 =
        some (some ((c6force.getD 50 0 - c6force.getD 0 0) / (((50 : ℕ) : ℚ) / 1000))) := by
      rfl
    rw [hstep, show c6force.getD 50 0 = ((50 : ℕ) : ℚ) from rfl,
      show c6force.getD 0 0 = ((0 : ℕ) : ℚ) from rfl]
    push_cast
    norm_num
  · have h : specRound (((50 : ℕ) : ℚ) * ((1015 : ℕ) : ℚ) / 1000) = 51 := by
      unfold specRound
      rw [show (((50 : ℕ) : ℚ) * ((1015 : ℕ) : ℚ) / 1000 + 1/2 : ℚ) = 205/4 by push_cast; norm_num,
        pyInt_eq_floor _ (by norm_num), show ⌊(205/4 : ℚ)⌋ = 51 by norm_num]
    rw [h]
    decide

/-- C6 (amended): for every window W of the fixed set, the RFD entry is
absent exactly when `onset + int(W * rate / 1000) ≥ len(force)` — with
`int()` truncation, not rounding — and the
computation is total (the embedding is a function; the per-window
`try/except` of the source can never fire over exact arithmetic). -/
theorem C6_amended (force : List ℚ) (onset rate w : ℕ) (hw : w ∈ timeWindows) :
    ((safe_calculate_rfd force onset rate).lookup w = some none ↔
      force.length ≤ onset + w * rate / 1000) := by
  unfold safe_calculate_rfd
  by_cases hlen : force.length ≤ onset
  · rw [if_pos hlen, lookup_windows _ w hw]
    simp only [Option.some.injEq, true_iff, eq_self_iff_true]
    exact le_trans hlen (Nat.le_add_right _ _)
  · rw [if_neg hlen, lookup_windows _ w hw]
    simp only [Option.some.injEq]
    split
    · rename_i hc
      constructor
      · intro h
        exact absurd h (by simp)
      · intro h
        omega
    · rename_i hc
      constructor
      · intro _
        omega
      · intro _
        rfl

/-- C6 witness: concrete instantiation of `C6_amended` for the 50 ms
window on a 50-sample series at 1000 Hz (entry absent, boundary case). -/
theorem C6_amended_witness :
    ((safe_calculate_rfd (List.replicate 50 (1 : ℚ)) 0 1000).lookup 50 = some none ↔
      (List.replicate 50 (1 : ℚ)).length ≤ 0 + 50 * 1000 / 1000) :=
  C6_amended (List.replicate 50 1) 0 1000 50 (by decide)

/-- C7 (counterexample): a filtered output of six `inf` values contains
non-finite values but no NaN, so `safe_apply_filter` keeps it instead of
falling back to the unmodified input — the source only tests
`np.isnan`, not finiteness. -/
theorem C7_counterexample :
    (safe_apply_filter c7kernel c7force 50 1000).any (fun v => !v.isFinite) = true ∧
    safe_apply_filter c7kernel c7force 50 1000 ≠ c7force.map FVal.fin := by
  have hc : cutoffOf 50 1000 = 1/10 := by
    unfold cutoffOf
    rw [min_def]
    norm_num
  have hval : safe_apply_filter c7kernel c7force 50 1000 = List.replicate 6 FVal.inf := by
    unfold safe_apply_filter
    rw [hc, if_neg (by decide : ¬(c7force.length < 6)), if_neg (by norm_num : ¬((1/10 : ℚ) ≤ 0)),
      if_neg (by decide : ¬((c7kernel (1/10) c7force).any FVal.isNaN = true))]
    rfl
  rw [hval]
  exact ⟨by decide, by decide⟩

/-- C7 (amended): whenever the raw kernel output contains a NaN value,
`safe_apply_filter` discards it and returns the unmodified copy of the
input series (infinities alone are kept, as the source tests only for
NaN). -/
theorem C7_amended (kernelF : ℚ → List ℚ → List FVal) (force : List ℚ)
    (freq : ℚ) (rate : ℕ)
    (hnan : (kernelF (cutoffOf freq rate) force).any FVal.isNaN = true) :
    safe_apply_filter kernelF force freq rate = force.map FVal.fin := by
  unfold safe_apply_filter
  split_ifs with h1 h2 <;> rfl

/-- C7 witness: a kernel returning a single NaN on a six-sample input is
discarded in favour of the unmodified copy. -/
theorem C7_amended_witness :
    safe_apply_filter (fun _ _ => [FVal.nan]) [0, 0, 0, 0, 0, 0] 50 1000 =
      ([0, 0, 0, 0, 0, 0] : List ℚ).map FVal.fin :=
  C7_amended (fun _ _ => [FVal.nan]) [0, 0, 0, 0, 0, 0] 50 1000 (by decide)

theorem le_foldl_max (l : List ℚ) (a : ℚ) : a ≤ l.foldl max a := by
  induction l generalizing a with
  | nil => exact le_refl a
  | cons b tl ih => exact le_trans (le_max_left a b) (ih (max a b))

theorem mem_le_foldl_max (l : List ℚ) (a x : ℚ) (hx : x ∈ l) : x ≤ l.foldl max a := by
  induction l generalizing a with
  | nil => cases hx
  | cons b tl ih =>
    rcases List.mem_cons.mp hx with rfl | h
    · exact le_trans (le_max_right a x) (le_foldl_max tl (max a x))
    · exact ih (max a b) h

theorem npMax_ge (l : List ℚ) (x : ℚ) (hx : x ∈ l) : x ≤ npMax l := by
  cases l with
  | nil => cases hx
  | cons b tl =>
    rcases List.mem_cons.mp hx with rfl | h
    · exact le_foldl_max tl x
    · exact mem_le_foldl_max tl b x h

theorem getD_mem (l : List ℚ) (i : ℕ) (h : i < l.length) : l.getD i 0 ∈ l := by
  rw [List.getD_eq_getElem l 0 h]
  exact List.getElem_mem h

theorem getD_mem_drop (l : List ℚ) (i : ℕ) (h : i < l.length) : l.getD i 0 ∈ l.drop i := by
  have h0 : 0 < (l.drop i).length := by
    rw [List.length_drop]
    omega
  have hsw : (l.drop i).getD 0 0 = l.getD i 0 := by
    rw [List.getD_eq_getElem _ 0 h0, List.getD_eq_getElem _ 0 h]
    rw [List.getElem_drop]
    simp
  rw [← hsw]
  exact getD_mem (l.drop i) 0 h0

theorem filterQ_log_snd (kernel : ℚ → List ℚ → List ℚ) (log : List String)
    (force : List ℚ) (freq : ℚ) (rate : ℕ) :
    (safe_apply_filterQ_log kernel log force freq rate).2 =
      safe_apply_filterQ kernel force freq rate := by
  unfold safe_apply_filterQ_log safe_apply_filterQ
  split_ifs <;> rfl

theorem filterQ_length (kernel : ℚ → List ℚ → List ℚ)
    (hk : ∀ c l, (kernel c l).length = l.length) (force : List ℚ) (freq : ℚ) (rate : ℕ) :
    (safe_apply_filterQ kernel force freq rate).length = force.length := by
  unfold safe_apply_filterQ
  split_ifs <;> first | rfl | exact hk _ _

theorem clampIndex_lt (idx : ℤ) (n : ℕ) (h : 0 < n) : clampIndex idx n < n := by
  unfold clampIndex intMax intMin
  split_ifs <;> omega

theorem resolve_onset_lt (a : ℕ) (t : ℚ) (m : Option ℚ) (rate flen : ℕ)
    (h : 0 < flen) : (resolve_onset a t m rate flen).1 < flen := by
  unfold resolve_onset
  cases m with
  | none => exact clampIndex_lt _ _ h
  | some v => exact clampIndex_lt _ _ h

theorem analyze_core_onset_lt (stdFn : List ℚ → ℚ) (tc filtered : List ℚ)
    (mult : ℚ) (rate bw : ℕ) (m : Option ℚ) (h : 0 < filtered.length) :
    (analyze_core stdFn tc filtered mult rate bw m).onset_index < filtered.length := by
  simp only [analyze_core]
  exact resolve_onset_lt _ _ _ _ _ h

theorem getD_le_peakSel (filtered : List ℚ) (i : ℕ)
    (h : i < filtered.length ∨ filtered = []) :
    filtered.getD i 0 ≤
      (if i < filtered.length - 1 then npMax (filtered.drop i) else npMax filtered) := by
  rcases h with h | rfl
  · split_ifs with hlt
    · exact npMax_ge _ _ (getD_mem_drop filtered i h)
    · exact npMax_ge _ _ (getD_mem filtered i h)
  · split_ifs <;> simp [npMax, List.getD]

theorem analyze_core_peak (stdFn : List ℚ → ℚ) (tc filtered : List ℚ)
    (mult : ℚ) (rate bw : ℕ) (m : Option ℚ) :
    (analyze_core stdFn tc filtered mult rate bw m).onset_force ≤
      (analyze_core stdFn tc filtered mult rate bw m).peak_force := by
  simp only [analyze_core]
  apply getD_le_peakSel
  rcases Nat.eq_zero_or_pos filtered.length with h0 | hpos
  · exact Or.inr (List.length_eq_zero.mp h0)
  · exact Or.inl (resolve_onset_lt _ _ _ _ _ hpos)

theorem analyzeWithLog_snd (kernel : ℚ → List ℚ → List ℚ) (stdFn : List ℚ → ℚ)
    (log : List String) (t f : List (Option ℚ)) (freq mult : ℚ) (rate bw : ℕ)
    (m : Option ℚ) :
    (analyzeWithLog kernel stdFn log t f freq mult rate bw m).2 =
      analyze_trial_safe kernel stdFn t f freq mult rate bw m := by
  unfold analyzeWithLog analyze_trial_safe
  split_ifs <;> simp [filterQ_log_snd]

theorem analyze_ok_iff (kernel : ℚ → List ℚ → List ℚ) (stdFn : List ℚ → ℚ)
    (t f : List (Option ℚ)) (freq mult : ℚ) (rate bw : ℕ) (m : Option ℚ)
    (r : AnalysisResult) :
    analyze_trial_safe kernel stdFn t f freq mult rate bw m = .ok r ↔
      (50 ≤ t.length ∧ 50 ≤ f.length ∧ t.length = f.length ∧
       50 ≤ (cleanT t f).length ∧
       r = analyze_core stdFn (cleanT t f)
             (safe_apply_filterQ kernel (cleanF t f) freq rate) mult rate bw m) := by
  unfold analyze_trial_safe
  split_ifs with h1 h2 h3
  · constructor
    · intro h
      simp at h
    · rintro ⟨ha, hb, _, _, _⟩
      rcases h1 with h | h <;> omega
  · constructor
    · intro h
      simp at h
    · rintro ⟨_, _, hc, _, _⟩
      exact absurd hc h2
  · constructor
    · intro h
      simp at h
    · rintro ⟨_, _, _, hd, _⟩
      omega
  · push_neg at h1
    constructor
    · intro h
      refine ⟨h1.1, h1.2, not_ne_iff.mp h2, le_of_not_lt h3, ?_⟩
      injection h with h
      exact h.symm
    · rintro ⟨_, _, _, _, rfl⟩
      rfl

/-- C5: fewer than 50 raw samples in either array, or fewer than 50
valid pairs after removing rows where either value is NaN, makes
`analyze_trial_safe` return a `Failure` carrying one of the two
insufficiency messages; the embedding is a total function, so no
exception escapes. -/
theorem C5_insufficient (kernel : ℚ → List ℚ → List ℚ) (stdFn : List ℚ → ℚ)
    (t f : List (Option ℚ)) (freq mult : ℚ) (rate bw : ℕ) (m : Option ℚ)
    (h : t.length < 50 ∨ f.length < 50 ∨
      (t.length = f.length ∧ (cleanPairs t f).length < 50)) :
    analyze_trial_safe kernel stdFn t f freq mult rate bw m = .error errDataShort ∨
    analyze_trial_safe kernel stdFn t f freq mult rate bw m = .error errValidShort := by
  unfold analyze_trial_safe
  rcases h with h | h | ⟨heq, hclean⟩
  · rw [if_pos (Or.inl h)]
    exact Or.inl rfl
  · rw [if_pos (Or.inr h)]
    exact Or.inl rfl
  · by_cases h1 : t.length < 50 ∨ f.length < 50
    · rw [if_pos h1]
      exact Or.inl rfl
    · have hcleanT : (cleanT t f).length < 50 := by
        unfold cleanT
        rw [List.length_map]
        exact hclean
      rw [if_neg h1, if_neg (not_ne_iff.mpr heq), if_pos hcleanT]
      exact Or.inr rfl

/-- C5 witness: ten-sample input yields the short-data failure. -/
theorem C5_witness :
    analyze_trial_safe (fun _ l => l) (fun _ => 0) (List.replicate 10 (some 1))
        (List.replicate 10 (some 1)) 50 5 1000 1000 none = .error errDataShort ∨
    analyze_trial_safe (fun _ l => l) (fun _ => 0) (List.replicate 10 (some 1))
        (List.replicate 10 (some 1)) 50 5 1000 1000 none = .error errValidShort :=
  C5_insufficient _ _ _ _ _ _ _ _ _ (Or.inl (by decide))

/-- C8: in every produced result record the effective onset index is
clamped into the valid index range of the analyzed (cleaned) force
series: `0 ≤ onset_index < len(force)` (the lower bound is the ℕ type;
`hk` states that the `filtfilt` kernel preserves length, as scipy
does). -/
theorem C8_onset_clamped (kernel : ℚ → List ℚ → List ℚ) (stdFn : List ℚ → ℚ)
    (t f : List (Option ℚ)) (freq mult : ℚ) (rate bw : ℕ) (m : Option ℚ)
    (hk : ∀ c l, (kernel c l).length = l.length) :
    Except.map (fun r => decide (r.onset_index < (cleanF t f).length))
      (analyze_trial_safe kernel stdFn t f freq mult rate bw m) ≠ Except.ok false := by
  unfold analyze_trial_safe
  split_ifs with h1 h2 h3
  · simp [Except.map]
  · simp [Except.map]
  · simp [Except.map]
  · have hlenF : (cleanF t f).length = (cleanT t f).length := by
      unfold cleanT cleanF
      rw [List.length_map, List.length_map]
    have hpos : 0 < (safe_apply_filterQ kernel (cleanF t f) freq rate).length := by
      rw [filterQ_length kernel hk]
      omega
    have honset := analyze_core_onset_lt stdFn (cleanT t f)
      (safe_apply_filterQ kernel (cleanF t f) freq rate) mult rate bw m hpos
    rw [filterQ_length kernel hk] at honset
    simp [Except.map, honset]

/-- C8 witness: concrete instantiation with the identity kernel on a
50-sample trial. -/
theorem C8_witness :
    Except.map (fun r => decide (r.onset_index <
        (cleanF (List.replicate 50 (some (1 : ℚ))) (List.replicate 50 (some (2 : ℚ)))).length))
      (analyze_trial_safe (fun _ l => l) (fun _ => 0) (List.replicate 50 (some 1))
        (List.replicate 50 (some 2)) 50 5 1000 1000 none) ≠ Except.ok false :=
  C8_onset_clamped _ _ _ _ _ _ _ _ _ (fun _ _ => rfl)

/-- C9: the result component of `analyzeWithLog` is independent of the
ambient warning log — the only mutable state the source interacts
with — so two invocations with identical inputs produce identical
result records (the embedding is a function of its arguments). -/
theorem C9_no_ambient_state (kernel : ℚ → List ℚ → List ℚ) (stdFn : List ℚ → ℚ)
    (log₁ log₂ : List String) (t f : List (Option ℚ)) (freq mult : ℚ)
    (rate bw : ℕ) (m : Option ℚ) :
    (analyzeWithLog kernel stdFn log₁ t f freq mult rate bw m).2 =
      (analyzeWithLog kernel stdFn log₂ t f freq mult rate bw m).2 := by
  rw [analyzeWithLog_snd, analyzeWithLog_snd]

/-- C10: in every successfully produced result record the reported peak
force is at least the force at the effective onset, in both the
suffix-argmax branch and the global-argmax fallback branch. -/
theorem C10_peak_ge_onset (kernel : ℚ → List ℚ → List ℚ) (stdFn : List ℚ → ℚ)
    (t f : List (Option ℚ)) (freq mult : ℚ) (rate bw : ℕ) (m : Option ℚ) :
    Except.map (fun r => decide (r.onset_force ≤ r.peak_force))
      (analyze_trial_safe kernel stdFn t f freq mult rate bw m) ≠ Except.ok false := by
  unfold analyze_trial_safe
  split_ifs with h1 h2 h3
  · simp [Except.map]
  · simp [Except.map]
  · simp [Except.map]
  · have h := analyze_core_peak stdFn (cleanT t f)
      (safe_apply_filterQ kernel (cleanF t f) freq rate) mult rate bw m
    simp [Except.map, h]

theorem cleanPairs_length_le (t f : List (Option ℚ)) :
    (cleanPairs t f).length ≤ (t.zip f).length :=
  List.length_filterMap_le _ _

/-- If no row was dropped by cleaning, both series were fully valid and
cleaning merely strips the `some` wrappers. -/
theorem clean_full (t : List (Option ℚ)) :
    ∀ f : List (Option ℚ), t.length = f.length →
      (cleanPairs t f).length = f.length →
      (cleanT t f).map some = t ∧ (cleanF t f).map some = f := by
  induction t with
  | nil =>
    intro f hlen _
    cases f with
    | nil => exact ⟨rfl, rfl⟩
    | cons b fs => simp at hlen
  | cons a ts ih =>
    intro f hlen hfull
    cases f with
    | nil => simp at hlen
    | cons b fs =>
      rcases a with _ | x
      · exfalso
        have h1 : cleanPairs (none :: ts) (b :: fs) = cleanPairs ts fs := rfl
        have hle2 : (cleanPairs ts fs).length ≤ fs.length :=
          le_trans (cleanPairs_length_le ts fs)
            (le_trans (le_of_eq (List.length_zip ts fs)) inf_le_right)
        rw [h1] at hfull
        simp only [List.length_cons] at hlen hfull
        omega
      · rcases b with _ | y
        · exfalso
          have h1 : cleanPairs (some x :: ts) (none :: fs) = cleanPairs ts fs := rfl
          have hle2 : (cleanPairs ts fs).length ≤ fs.length :=
            le_trans (cleanPairs_length_le ts fs)
              (le_trans (le_of_eq (List.length_zip ts fs)) inf_le_right)
          rw [h1] at hfull
          simp only [List.length_cons] at hlen hfull
          omega
        · have h1 : cleanPairs (some x :: ts) (some y :: fs) =
              (x, y) :: cleanPairs ts fs := rfl
          have hlen' : ts.length = fs.length := by simpa using hlen
          have hfull' : (cleanPairs ts fs).length = fs.length := by
            rw [h1] at hfull
            simpa using hfull
          obtain ⟨hT, hF⟩ := ih fs hlen' hfull'
          constructor
          · show ((cleanPairs (some x :: ts) (some y :: fs)).map Prod.fst).map some = _
            rw [h1]
            simp only [List.map_cons]
            rw [show (cleanPairs ts fs).map Prod.fst = cleanT ts fs from rfl, hT]
          · show ((cleanPairs (some x :: ts) (some y :: fs)).map Prod.snd).map some = _
            rw [h1]
            simp only [List.map_cons]
            rw [show (cleanPairs ts fs).map Prod.snd = cleanF ts fs from rfl, hF]

/-- C4: applying a manual onset (store the override, re-analyze) and then
resetting to automatic (delete the override, re-analyze with
`manual_onset_time` absent) leaves exactly the original automatic result
record in the session, bit for bit: when the trial data are fully valid
the reset re-analysis reproduces `r0` by referential transparency, and
when a re-analysis fails the handlers keep the previous record — which
is still `r0`. -/
theorem C4_roundtrip (kernel : ℚ → List ℚ → List ℚ) (stdFn : List ℚ → ℚ)
    (t_raw f_raw : List (Option ℚ)) (freq mult : ℚ) (rate bw : ℕ) (v : ℚ)
    (r0 : AnalysisResult)
    (h0 : analyze_trial_safe kernel stdFn t_raw f_raw freq mult rate bw none = .ok r0) :
    (resetOnsetHandler kernel stdFn f_raw freq mult rate bw
       (applyOnsetHandler kernel stdFn f_raw freq mult rate bw ⟨none, some r0⟩ v)).result =
      some r0 := by
  obtain ⟨ht50, hf50, hlen, htc50, hr0⟩ :=
    (analyze_ok_iff kernel stdFn t_raw f_raw freq mult rate bw none r0).mp h0
  have htd : r0.time_data = cleanT t_raw f_raw := by
    rw [hr0]
    rfl
  have happly_eq : applyOnsetHandler kernel stdFn f_raw freq mult rate bw ⟨none, some r0⟩ v =
      (match analyze_trial_safe kernel stdFn (r0.time_data.map some) f_raw freq mult rate bw
          (some v) with
       | .ok r' => (⟨some v, some r'⟩ : TrialSession)
       | .error _ => (⟨some v, some r0⟩ : TrialSession)) := rfl
  cases happly : analyze_trial_safe kernel stdFn (r0.time_data.map some) f_raw freq mult
      rate bw (some v) with
  | error e =>
    rw [happly_eq, happly]
    have hreset_eq : resetOnsetHandler kernel stdFn f_raw freq mult rate bw
        ⟨some v, some r0⟩ =
        (match analyze_trial_safe kernel stdFn (r0.time_data.map some) f_raw freq mult rate bw
            none with
         | .ok r' => (⟨none, some r'⟩ : TrialSession)
         | .error _ => (⟨none, some r0⟩ : TrialSession)) := rfl
    rw [hreset_eq]
    cases hreset : analyze_trial_safe kernel stdFn (r0.time_data.map some) f_raw freq mult
        rate bw none with
    | error e2 => rfl
    | ok r2 =>
      exfalso
      obtain ⟨c1, c2, c3, c4, _⟩ :=
        (analyze_ok_iff kernel stdFn (r0.time_data.map some) f_raw freq mult rate bw
          none r2).mp hreset
      have hok : analyze_trial_safe kernel stdFn (r0.time_data.map some) f_raw freq mult
          rate bw (some v) = .ok (analyze_core stdFn (cleanT (r0.time_data.map some) f_raw)
            (safe_apply_filterQ kernel (cleanF (r0.time_data.map some) f_raw) freq rate)
            mult rate bw (some v)) :=
        (analyze_ok_iff kernel stdFn (r0.time_data.map some) f_raw freq mult rate bw
          (some v) _).mpr ⟨c1, c2, c3, c4, rfl⟩
      rw [happly] at hok
      simp at hok
  | ok r1 =>
    obtain ⟨c1, c2, c3, c4, hr1⟩ :=
      (analyze_ok_iff kernel stdFn (r0.time_data.map some) f_raw freq mult rate bw
        (some v) r1).mp happly
    have hfullT : (cleanPairs t_raw f_raw).length = f_raw.length := by
      have hm : (r0.time_data.map some).length = f_raw.length := c3
      rw [List.length_map, htd] at hm
      unfold cleanT at hm
      rw [List.length_map] at hm
      exact hm
    obtain ⟨hT, hF⟩ := clean_full t_raw f_raw hlen hfullT
    have hmap : r0.time_data.map some = t_raw := by
      rw [htd, hT]
    have htd1 : r1.time_data = cleanT t_raw f_raw := by
      rw [hr1, hmap]
      rfl
    rw [happly_eq, happly]
    have hreset_eq : resetOnsetHandler kernel stdFn f_raw freq mult rate bw
        ⟨some v, some r1⟩ =
        (match analyze_trial_safe kernel stdFn (r1.time_data.map some) f_raw freq mult rate bw
            none with
         | .ok r' => (⟨none, some r'⟩ : TrialSession)
         | .error _ => (⟨none, some r1⟩ : TrialSession)) := rfl
    have hreset : analyze_trial_safe kernel stdFn (r1.time_data.map some) f_raw freq mult
        rate bw none = .ok r0 := by
      rw [htd1, hT]
      exact h0
    rw [hreset_eq, hreset]

/-- C4 witness: on a concrete valid 50-sample trial the automatic
analysis succeeds with record `c4res`, and applying a manual onset of
0.03 s then resetting restores exactly `c4res`. -/
theorem C4_witness :
    analyze_trial_safe c4kernel (fun _ => 0) c4t c4f 50 5 1000 1000 none = .ok c4res ∧
    (resetOnsetHandler c4kernel (fun _ => 0) c4f 50 5 1000 1000
       (applyOnsetHandler c4kernel (fun _ => 0) c4f 50 5 1000 1000 ⟨none, some c4res⟩
         (3/100))).result = some c4res :=
  ⟨by rfl, C4_roundtrip c4kernel (fun _ => 0) c4t c4f 50 5 1000 1000 (3/100) c4res (by rfl)⟩

end IMTP
